import Mathlib

/-!
Verification of `network.py` (a small packet-switched network simulator:
packet codec, host, multi-interface router with a distance-vector stub).

Shallow embedding conventions:
* Python byte/character strings are `List Char`.
* Python dynamic values that can be `'~'` (the unreachable sentinel) or an
  integer are `PyCost`; parsed tokens that can be strings or integers are
  `PyVal`.
* Fallible code returns `Except Err _`; functions that mutate the router in
  place return `(Except Err Unit) × _` so that the state reached at the point
  of an uncaught Python exception is still observable.
* `queue.Queue` instances are unbounded lists here: every `put` the router
  performs passes `block=True`, and a blocking put never raises `queue.Full`,
  so capacity never changes which code path runs.
-/

/-- String constant: the protocol tag `'data'`. -/
def sData : List Char := ("data").toList

/-- String constant: the protocol tag `'control'`. -/
def sControl : List Char := ("control").toList

/-- Node-name constant `'H1'` (hard-coded in `initTable`/`update_routes`). -/
def sH1 : List Char := ("H1").toList

/-- Node-name constant `'H2'`. -/
def sH2 : List Char := ("H2").toList

/-- Node-name constant `'H3'`. -/
def sH3 : List Char := ("H3").toList

/-- Node-name constant `'RA'`. -/
def sRA : List Char := ("RA").toList

/-- Node-name constant `'RB'`. -/
def sRB : List Char := ("RB").toList

/-- Node-name constant `'RC'`. -/
def sRC : List Char := ("RC").toList

/-- Node-name constant `'RD'`. -/
def sRD : List Char := ("RD").toList

/-- Uncaught Python exceptions of `network.py`.
`unknownProtS` is the `raise(...)` in `NetworkPacket.to_byte_S` (unknown
`prot_S` option) and `unknownProtF` the one in `NetworkPacket.from_byte_S`
(unknown `prot_S` field).  `malformedPacket` is the error named by the spec
(`MalformedPacketError`); the code never raises it — it is included only so
the spec's claim about it can be stated and refuted.  `indexError`,
`attributeError` and `valueError` are the builtin exceptions raised by list
indexing, `None.group(0)`, and `min([])` respectively; `unknownPacketType` is
the explicit `raise Exception` in `Router.process_queues`. -/
inductive Err where
  | unknownProtS (field : List Char)
  | unknownProtF (field : List Char)
  | malformedPacket
  | indexError
  | attributeError
  | valueError
  | unknownPacketType
deriving DecidableEq, Repr

/-- A routing-table cost cell: the string sentinel `'~'` or a Python int. -/
inductive PyCost where
  | tilde
  | num (n : Int)
deriving DecidableEq, Repr

/-- A parsed token cell of `update_routes`: a string token or an assigned int. -/
inductive PyVal where
  | s (t : List Char)
  | i (n : Int)
deriving DecidableEq, Repr

/-- `NetworkPacket` of `network.py`: destination, upper-layer protocol tag
(`'data'` / `'control'`), payload.  The destination is kept as its string
form `str(dst)` (the only way the code ever uses it). -/
structure NetworkPacket where
  dst : List Char
  prot_S : List Char
  data_S : List Char
deriving DecidableEq, Repr

/-- One row of `Router.cost_D`: `[neighbor, interface, cost]`. -/
structure CostEntry where
  nbr : List Char
  intf : Nat
  cost : Int
deriving DecidableEq, Repr

/-- One row of `Router.rt_tbl_D`: `[destination, router, cost]`. -/
structure RtRow where
  dst : List Char
  via : List Char
  cost : PyCost
deriving DecidableEq, Repr

/-- Router state: name, static neighbor-cost table, routing table, and one
in/out queue pair per interface (`Interface.in_queue` / `out_queue`, front of
the list = next element `get` returns).  `max_queue_size` is dropped: all
router puts are blocking, so capacity never selects a different code path. -/
structure Router where
  name : List Char
  cost_D : List CostEntry
  rt_tbl_D : List RtRow
  inQ : List (List (List Char))
  outQ : List (List (List Char))
  stop : Bool
deriving DecidableEq, Repr

/-- `str(dst).zfill(5)`: pad with `'0'` to length 5; strings of length at
least 5 are returned unchanged, and a leading `'+'`/`'-'` sign stays in
front of the inserted zeros (`'-1'.zfill(5) = '-0001'`). -/
def zfill5 (l : List Char) : List Char :=
  if l.length ≥ 5 then l
  else
    match l with
    | [] => List.replicate 5 '0'
    | c :: rest =>
      if c = '+' ∨ c = '-' then c :: (List.replicate (5 - l.length) '0' ++ rest)
      else List.replicate (5 - l.length) '0' ++ (c :: rest)

/-- Python `str.strip('0')`: remove leading AND trailing `'0'` characters. -/
def pyStrip0 (l : List Char) : List Char :=
  (((l.dropWhile (fun c => c = '0')).reverse).dropWhile (fun c => c = '0')).reverse

/-- `NetworkPacket.to_byte_S`: 5-char zero-filled destination, protocol digit
(`'data'` → `'1'`, `'control'` → `'2'`, otherwise the `raise(...)`), payload. -/
def to_byte_S (p : NetworkPacket) : Except Err (List Char) :=
  if p.prot_S = sData then .ok (zfill5 p.dst ++ '1' :: p.data_S)
  else if p.prot_S = sControl then .ok (zfill5 p.dst ++ '2' :: p.data_S)
  else .error (.unknownProtS p.prot_S)

/-- `NetworkPacket.from_byte_S`: `byte_S[0:5].strip('0')` is the destination,
`byte_S[5:6]` the protocol digit, `byte_S[6:]` the payload. -/
def from_byte_S (bs : List Char) : Except Err NetworkPacket :=
  let dst := pyStrip0 (bs.take 5)
  let prot := (bs.drop 5).take 1
  if prot = [ '1' ] then .ok ⟨dst, sData, bs.drop 6⟩
  else if prot = [ '2' ] then .ok ⟨dst, sControl, bs.drop 6⟩
  else .error (.unknownProtF prot)

/-- `from_byte_S(to_byte_S(p))` — the round trip the spec's contract is about. -/
def roundTrip (p : NetworkPacket) : Except Err NetworkPacket :=
  match to_byte_S p with
  | .ok bs => from_byte_S bs
  | .error e => .error e

instance {ε α : Type} [DecidableEq ε] [DecidableEq α] : DecidableEq (Except ε α) := fun a b =>
  match a, b with
  | .ok x, .ok y =>
      if h : x = y then isTrue (by rw [h]) else isFalse (fun hc => by cases hc; exact h rfl)
  | .ok _, .error _ => isFalse (fun hc => by cases hc)
  | .error _, .ok _ => isFalse (fun hc => by cases hc)
  | .error e, .error f =>
      if h : e = f then isTrue (by rw [h]) else isFalse (fun hc => by cases hc; exact h rfl)

/-- Overwrite the cost cell of row `i` (`table[i][2] = c`); rows before/after
and the destination/next-hop cells are untouched.  Out-of-range `i` is a
no-op here; callers that can go out of range use `rtSet?`. -/
def rtSet : List RtRow → Nat → PyCost → List RtRow
  | [], _, _ => []
  | r :: rs, 0, c => { r with cost := c } :: rs
  | r :: rs, i + 1, c => r :: rtSet rs i c

/-- Bounds-checked `table[i][2] = c`: `none` models Python's `IndexError`. -/
def rtSet? (tbl : List RtRow) (i : Nat) (c : PyCost) : Option (List RtRow) :=
  if i < tbl.length then some (rtSet tbl i c) else none

/-- The seven-row skeleton `initTable` starts from: destinations
`H1 H2 RA RB RC RD H3`, next hop = this router's own name, cost `'~'`. -/
def baseTable (name : List Char) : List RtRow :=
  [⟨sH1, name, .tilde⟩, ⟨sH2, name, .tilde⟩, ⟨sRA, name, .tilde⟩,
   ⟨sRB, name, .tilde⟩, ⟨sRC, name, .tilde⟩, ⟨sRD, name, .tilde⟩,
   ⟨sH3, name, .tilde⟩]

/-- One iteration of `initTable`'s loop: the `if/elif` chain on
`cost_D[x][0]` that copies the link cost into the row of the matching
hard-coded name. -/
def initStep (tbl : List RtRow) (e : CostEntry) : List RtRow :=
  if e.nbr = sH1 then rtSet tbl 0 (.num e.cost)
  else if e.nbr = sH2 then rtSet tbl 1 (.num e.cost)
  else if e.nbr = sRA then rtSet tbl 2 (.num e.cost)
  else if e.nbr = sRB then rtSet tbl 3 (.num e.cost)
  else if e.nbr = sRC then rtSet tbl 4 (.num e.cost)
  else if e.nbr = sRD then rtSet tbl 5 (.num e.cost)
  else if e.nbr = sH3 then rtSet tbl 6 (.num e.cost)
  else tbl

/-- `Router.initTable`: the fixed 7-row table, then one pass over `cost_D`
filling in the cost of each recognised neighbor name. -/
def initTable (name : List Char) (cost_D : List CostEntry) : List RtRow :=
  cost_D.foldl initStep (baseTable name)

/-- `Router.__init__`: one interface per `cost_D` row (all queues empty),
routing table from `initTable`.  The `max_queue_size` argument only sets the
queue capacity, which this model leaves unbounded (see the header note). -/
def mkRouter (name : List Char) (cost_D : List CostEntry) : Router :=
  { name := name, cost_D := cost_D, rt_tbl_D := initTable name cost_D,
    inQ := List.replicate cost_D.length [],
    outQ := List.replicate cost_D.length [],
    stop := false }

/-- `self.intf_L[j].put(bs, 'out', True)`: append to out-queue `j`; a missing
interface is Python's `IndexError` (the routers' `except queue.Full` clauses
do not catch it, and a blocking put never raises `queue.Full`). -/
def putOut (j : Nat) (bs : List Char) (s : Router) : (Except Err Unit) × Router :=
  if j < s.outQ.length then
    (.ok (), { s with outQ := s.outQ.set j (s.outQ.getD j [] ++ [bs]) })
  else (.error .indexError, s)

/-- `self.intf_L[i].get('in')`: non-blocking dequeue, `none` on empty
(`queue.Empty` is caught and turned into `None`). -/
def popIn (i : Nat) (s : Router) : Option (List Char) × Router :=
  match (s.inQ.getD i []).head? with
  | none => (none, s)
  | some pkt => (some pkt, { s with inQ := s.inQ.set i (s.inQ.getD i []).tail })

/-- Python repr of one routing-table row, as `str(x)` produces it inside
`send_routes`: `['H1', 'RB', 3]` — strings quoted, ints bare, `'~'` quoted. -/
def pyReprRow (r : RtRow) : List Char :=
  '[' :: '\'' :: r.dst ++ '\'' :: ',' :: ' ' :: '\'' :: r.via ++ '\'' :: ',' :: ' ' ::
    (match r.cost with
     | .tilde => [ '\'', '~', '\'' ]
     | .num n => (toString n).toList) ++ [ ']' ]

/-- `Router.send_routes(i)`: concatenate the reprs of all routing-table rows,
wrap them in a control packet from source `0`, and put it (blocking) on
interface `i`'s out queue.  The encode happens first (inside the `print`),
then the interface lookup, matching the statement order in the source. -/
def send_routes (i : Nat) (s : Router) : (Except Err Unit) × Router :=
  let tempTable := (s.rt_tbl_D.map pyReprRow).flatten
  match to_byte_S ⟨[ '0' ], sControl, tempTable⟩ with
  | .error e => (.error e, s)
  | .ok bs => putOut i bs s

/-- The characters Python's `\s` matches in `re.split(r'\s+', ...)` (ASCII). -/
def pySpace (c : Char) : Bool :=
  c = ' ' ∨ c = '\t' ∨ c = '\n' ∨ c = '\r' ∨ c = '\x0b' ∨ c = '\x0c'

/-- Does `re.match(r"^\d{6}", s)` succeed? -/
def sixDigits (s : List Char) : Bool :=
  s.length ≥ 6 ∧ (s.take 6).all Char.isDigit

/-- One character of `re.sub(r"^\d{6}|[\]\,\'\[]", ' ', s)` past the prefix:
each of `]`, `,`, `'`, `[` becomes a single space. -/
def replChar (c : Char) : Char :=
  if c = ']' ∨ c = ',' ∨ c = '\'' ∨ c = '[' then ' ' else c

/-- `re.sub(r"^\d{6}|[\]\,\'\[]", ' ', s)`: if the string starts with six
digits they collapse to one space (the `^` anchor fires at most once), and
every bracket/comma/quote elsewhere becomes a space. -/
def pySub (s : List Char) : List Char :=
  if sixDigits s then ' ' :: (s.drop 6).map replChar else s.map replChar

/-- Prepend a character to the first piece of a split result. -/
def consHead2 (c : Char) : List (List Char) → List (List Char)
  | [] => [[ c ]]
  | t :: ts => (c :: t) :: ts

/-- Worker for `splitWs`; `inSep` records whether the previous character was
part of a whitespace run already accounted for. -/
def splitWsGo : Bool → List Char → List (List Char)
  | _, [] => [[]]
  | inSep, c :: rest =>
    if pySpace c then
      if inSep then splitWsGo true rest else [] :: splitWsGo true rest
    else consHead2 c (splitWsGo false rest)

/-- `re.split(r'\s+', s)`: pieces between maximal whitespace runs, with an
empty piece at either end when the string starts/ends with whitespace. -/
def splitWs (s : List Char) : List (List Char) :=
  splitWsGo false s

/-- `[new_list[n:n+3] for n in range(0, len(new_list), 3)]`. -/
def chunk3 : List PyVal → List (List PyVal)
  | [] => []
  | a :: [] => [[ a ]]
  | a :: b :: [] => [[ a, b ]]
  | a :: b :: c :: rest => [a, b, c] :: chunk3 rest

/-- Bounds-checked single-cell list update (`l[i] = a`). -/
def listSet? {α : Type} (l : List α) (i : Nat) (a : α) : Option (List α) :=
  if i < l.length then some (l.set i a) else none

/-- `temp_l[x][2] = v`: index chunk `x`, then assign its cell 2; `none` is
Python's `IndexError` (from either index). -/
def tempSet? (tl : List (List PyVal)) (x : Nat) (v : Int) : Option (List (List PyVal)) :=
  match tl.get? x with
  | none => none
  | some c =>
    match listSet? c 2 (.i v) with
    | none => none
    | some c2 => listSet? tl x c2

/-- The `if/elif` chain of `update_routes`'s loop over
`(rt_tbl_D[x][0], rt_tbl_D[x][1])`, in source order (the two duplicated
branches of the source are kept; they are unreachable but harmless). -/
def matchVal (d v : List Char) : Option Int :=
  if d = sH1 ∧ v = sRA then some 1
  else if d = sRA ∧ v = sRB then some 1
  else if d = sRB ∧ v = sH2 then some 3
  else if d = sH1 ∧ v = sRB then some 2
  else if d = sRA ∧ v = sH2 then some 4
  else if d = sH1 ∧ v = sH2 then some 5
  else if d = sRB ∧ v = sH1 then some 2
  else if d = sRB ∧ v = sRA then some 1
  else if d = sH2 ∧ v = sRB then some 3
  else if d = sRB ∧ v = sH1 then some 2
  else if d = sH2 ∧ v = sRA then some 4
  else if d = sH2 ∧ v = sH1 then some 5
  else if d = sH1 ∧ v = sRB then some 2
  else none

/-- `for x in range(len(temp_l))`: at each index read `rt_tbl_D[x]`
(`IndexError` if the routing table is shorter than `temp_l`), and on a name
match assign `temp_l[x][2]` and then `rt_tbl_D[x][2]`.  Returns the states
reached so far together with the loop's outcome. -/
def updLoop : List Nat → List (List PyVal) → List RtRow →
    (Except Err Unit) × List (List PyVal) × List RtRow
  | [], tl, rt => (.ok (), tl, rt)
  | x :: xs, tl, rt =>
    match rt.get? x with
    | none => (.error .indexError, tl, rt)
    | some row =>
      match matchVal row.dst row.via with
      | none => updLoop xs tl rt
      | some v =>
        match tempSet? tl x v with
        | none => (.error .indexError, tl, rt)
        | some tl2 => updLoop xs tl2 (rtSet rt x (.num v))

/-- The body of `Router.update_routes` up to (and excluding) the final
`send_routes(0)`: stringify the packet, run the regex pipeline, chunk the
tokens, perform the two unconditional zero assignments, run the name-match
loop, and fail with `AttributeError` when `re.match` found no 6-digit prefix
(`packet_beginning.group(0)`).  Returns the routing table reached, also on
error. -/
def updCore (p : NetworkPacket) (rt : List RtRow) : (Except Err Unit) × List RtRow :=
  match to_byte_S p with
  | .error e => (.error e, rt)
  | .ok str_p =>
    let nl := (splitWs (pySub str_p)).tail
    if nl.isEmpty then (.error .indexError, rt)
    else
      let tl := chunk3 (nl.dropLast.map PyVal.s)
      match tempSet? tl 1 0 with
      | none => (.error .indexError, rt)
      | some tl1 =>
        match tempSet? tl1 2 0 with
        | none => (.error .indexError, rt)
        | some tl2 =>
          match rtSet? rt 2 (.num 0) with
          | none => (.error .indexError, rt)
          | some rt1 =>
            match rtSet? rt1 1 (.num 0) with
            | none => (.error .indexError, rt1)
            | some rt2 =>
              match updLoop (List.range tl2.length) tl2 rt2 with
              | (.error e, _, rtE) => (.error e, rtE)
              | (.ok _, _, rtF) =>
                if sixDigits str_p then (.ok (), rtF)
                else (.error .attributeError, rtF)

/-- `Router.update_routes(p, i)`: run the parsing/mutation core, then
unconditionally `send_routes(0)` — only interface 0, regardless of `i` and of
whether anything changed (`i` is used only in a `print`). -/
def update_routes (p : NetworkPacket) (i : Nat) (s : Router) : (Except Err Unit) × Router :=
  match updCore p s.rt_tbl_D with
  | (.error e, rt2) => (.error e, { s with rt_tbl_D := rt2 })
  | (.ok _, rt2) => send_routes 0 { s with rt_tbl_D := rt2 }

/-- `Router.forward_packet(p, i)`: if the destination equals a neighbor id in
`cost_D`, put the packet on that (first matching) neighbor's interface;
otherwise put it on the interface of the first entry whose cost equals
`min(costs)`.  The surrounding `try` catches only `queue.Full`, which a
blocking put never raises; `IndexError` from a bad interface index, the
`ValueError` from `min([])`, and encode errors propagate. -/
def forward_packet (p : NetworkPacket) (i : Nat) (s : Router) : (Except Err Unit) × Router :=
  match s.cost_D.find? (fun e => e.nbr == p.dst) with
  | some e =>
    if e.intf < s.outQ.length then
      match to_byte_S p with
      | .ok bs => putOut e.intf bs s
      | .error er => (.error er, s)
    else (.error .indexError, s)
  | none =>
    match s.cost_D.map (fun e => e.cost) with
    | [] => (.error .valueError, s)
    | c :: cs =>
      let minCost := cs.foldl min c
      match s.cost_D.find? (fun e => e.cost == minCost) with
      | some z =>
        if z.intf < s.outQ.length then
          match to_byte_S p with
          | .ok bs => putOut z.intf bs s
          | .error er => (.error er, s)
        else (.error .indexError, s)
      | none => (.ok (), s)

/-- Dispatch of one interface's packet inside `process_queues`: decode, then
forward (`'data'`), update routes (`'control'`), or the explicit
`raise Exception('Unknown packet type ...')` — all uncaught, so any error is
returned to the caller. -/
def pqStep (i : Nat) (s : Router) : (Except Err Unit) × Router :=
  match popIn i s with
  | (none, s1) => (.ok (), s1)
  | (some pkt, s1) =>
    match from_byte_S pkt with
    | .error e => (.error e, s1)
    | .ok p =>
      if p.prot_S = sData then forward_packet p i s1
      else if p.prot_S = sControl then update_routes p i s1
      else (.error .unknownPacketType, s1)

/-- Poll the listed interfaces in order, stopping at the first uncaught
exception (there is no `try` in `process_queues`, so an error abandons the
remaining interfaces of the cycle). -/
def pqGo : List Nat → Router → (Except Err Unit) × Router
  | [], s => (.ok (), s)
  | i :: is, s =>
    match pqStep i s with
    | (.error e, s1) => (.error e, s1)
    | (.ok _, s1) => pqGo is s1

/-- `Router.process_queues()`: one poll cycle over
`range(len(self.intf_L))`. -/
def process_queues (s : Router) : (Except Err Unit) × Router :=
  pqGo (List.range s.inQ.length) s

/-- `Router.run()` observed for `fuel` cycles: each cycle runs
`process_queues` (an uncaught exception terminates the thread, returned as
`.error`), then checks the cooperative stop flag.  `fuel = 0` returns the
state of a still-running loop. -/
def runSteps : Nat → Router → Except Err Router
  | 0, s => .ok s
  | n + 1, s =>
    match process_queues s with
    | (.error e, _) => .error e
    | (.ok _, s1) => if s1.stop then .ok s1 else runSteps n s1

/-- The destination and next-hop cells of a routing-table row (everything but
the cost cell). -/
def dv (r : RtRow) : List Char × List Char := (r.dst, r.via)

/-- A control packet as decoded off the wire (`dst = ''.strip('0')`), whose
payload is an advertised-table string in the shape `send_routes` emits
(quotes omitted: the regex turns quotes and brackets into spaces alike, so
the token stream is identical). -/
def pCtl : NetworkPacket := ⟨[], sControl, ("[H1, RB, 1][H2, RB, 1][RA, RB, 1]").toList⟩

/-- Router `RB` with the single neighbor `H2` at interface 0, link cost 1. -/
def sC2 : Router := mkRouter (("RB").toList) [⟨sH2, 0, 1⟩]

/-- Router `RB` with neighbors `H2` (interface 0, cost 1) and `H1`
(interface 1, cost 2) — two interfaces. -/
def sC3 : Router := mkRouter (("RB").toList) [⟨sH2, 0, 1⟩, ⟨sH1, 1, 2⟩]

/-- Two-interface router whose interface-0 in-queue holds a packet with
protocol digit `'X'` and whose interface-1 in-queue holds a well-formed data
packet. -/
def sC7 : Router := { mkRouter (("RA").toList) [⟨sH1, 0, 1⟩, ⟨sRB, 1, 1⟩] with
  inQ := [[("00001Xyz").toList], [("000011ok").toList]] }

/-- Router whose only in-queue holds a control packet with the unparseable
payload `'x'`. -/
def sC8 : Router := { mkRouter (("RC").toList) [⟨sH1, 0, 1⟩] with
  inQ := [[("000002x").toList]] }

/-- Router with neighbors `A` (interface 0, cost 3) and `B` (interface 1,
cost 1) — the spec's forwarding examples. -/
def sFwd : Router := mkRouter (("RC").toList) [⟨("A").toList, 0, 3⟩, ⟨("B").toList, 1, 1⟩]

/-- A data packet destined for neighbor `A` of `sFwd`. -/
def pToA : NetworkPacket := ⟨("A").toList, sData, [ 'z' ]⟩

/-- A data packet destined for `C`, which is not a neighbor of `sFwd`. -/
def pToC : NetworkPacket := ⟨("C").toList, sData, [ 'z' ]⟩

/-- A data packet whose destination is the integer 10 (decimal string `10`,
which is `< 100000`). -/
def p10 : NetworkPacket := ⟨("10").toList, sData, []⟩

/-- A data packet with destination 42 and payload `hi`. -/
def p42 : NetworkPacket := ⟨("42").toList, sData, ("hi").toList⟩


/-! ## Helper lemmas -/

theorem take_append_len {α : Type} (l₁ l₂ : List α) (n : Nat) (h : l₁.length = n) :
    (l₁ ++ l₂).take n = l₁ := by
  subst h
  induction l₁ with
  | nil => simp
  | cons a t ih => simp [ih]

theorem drop_append_len {α : Type} (l₁ l₂ : List α) (n : Nat) (h : l₁.length = n) :
    (l₁ ++ l₂).drop n = l₂ := by
  subst h
  induction l₁ with
  | nil => simp
  | cons a t ih => simp [ih]

theorem dropWhile0_replicate (k : Nat) (l : List Char) :
    List.dropWhile (fun c => c = '0') (List.replicate k '0' ++ l) =
      List.dropWhile (fun c => c = '0') l := by
  induction k with
  | zero => simp
  | succ n ih => simp [List.replicate_succ, List.dropWhile, ih]

theorem pyStrip0_pad (k : Nat) (l : List Char) :
    pyStrip0 (List.replicate k '0' ++ l) = pyStrip0 l := by
  unfold pyStrip0
  rw [dropWhile0_replicate]

theorem zfill5_eq (l : List Char) (h : l.length ≤ 5)
    (hsign : ∀ c, l.head? = some c → ¬(c = '+' ∨ c = '-')) :
    zfill5 l = List.replicate (5 - l.length) '0' ++ l := by
  unfold zfill5
  by_cases h5 : l.length ≥ 5
  · have h5' : l.length = 5 := le_antisymm h h5
    simp [h5, h5']
  · simp only [h5, if_false]
    cases l with
    | nil => simp
    | cons c rest => simp [hsign c rfl]

theorem find?_append_first {α : Type} (P : α → Bool) (l₁ l₂ : List α) (e : α)
    (h1 : ∀ x ∈ l₁, P x = false) (h2 : P e = true) :
    List.find? P (l₁ ++ e :: l₂) = some e := by
  induction l₁ with
  | nil => simp [List.find?_cons, h2]
  | cons a t ih =>
    have ha := h1 a (by simp)
    simp only [List.cons_append, List.find?_cons, ha]
    exact ih (fun x hx => h1 x (by simp [hx]))

theorem foldl_min_le_init (cs : List Int) (c : Int) : cs.foldl min c ≤ c := by
  induction cs generalizing c with
  | nil => simp
  | cons d ds ih => exact le_trans (ih (min c d)) (min_le_left _ _)

theorem foldl_min_le_mem (cs : List Int) (c : Int) : ∀ x ∈ cs, cs.foldl min c ≤ x := by
  induction cs generalizing c with
  | nil => intro x hx; cases hx
  | cons d ds ih =>
    intro x hx
    rcases List.mem_cons.mp hx with rfl | hx2
    · exact le_trans (foldl_min_le_init ds (min c x)) (min_le_right _ _)
    · exact ih (min c d) x hx2

theorem foldl_min_mem (cs : List Int) (c : Int) : cs.foldl min c ∈ c :: cs := by
  induction cs generalizing c with
  | nil => simp
  | cons d ds ih =>
    have h := ih (min c d)
    simp only [List.foldl_cons]
    rcases List.mem_cons.mp h with h1 | h1
    · rcases min_choice c d with h2 | h2 <;> rw [h1, h2]
      · exact List.mem_cons_self _ _
      · simp
    · simp only [List.mem_cons]
      tauto

theorem rtSet_dv (tbl : List RtRow) (i : Nat) (c : PyCost) :
    (rtSet tbl i c).map dv = tbl.map dv := by
  induction tbl generalizing i with
  | nil => simp [rtSet]
  | cons r rs ih =>
    cases i with
    | zero => simp [rtSet, dv]
    | succ n => simp [rtSet, ih]

theorem rtSetQ_dv (tbl tbl2 : List RtRow) (i : Nat) (c : PyCost)
    (h : rtSet? tbl i c = some tbl2) : tbl2.map dv = tbl.map dv := by
  unfold rtSet? at h
  split at h
  · cases h
    exact rtSet_dv tbl i c
  · cases h

theorem updLoop_dv (xs : List Nat) (tl : List (List PyVal)) (rt : List RtRow) :
    ((updLoop xs tl rt).2.2).map dv = rt.map dv := by
  induction xs generalizing tl rt with
  | nil => simp [updLoop]
  | cons x xs ih =>
    unfold updLoop
    cases hrow : rt.get? x with
    | none => simp
    | some row =>
      simp only
      cases hmv : matchVal row.dst row.via with
      | none =>
        simp only [hmv]
        exact ih tl rt
      | some v =>
        simp only [hmv]
        cases hts : tempSet? tl x v with
        | none => simp
        | some tl2 =>
          simp only
          rw [ih tl2 (rtSet rt x (.num v)), rtSet_dv]

theorem send_routes_rt (j : Nat) (t : Router) :
    ((send_routes j t).2).rt_tbl_D = t.rt_tbl_D := by
  simp only [send_routes]
  split
  · rfl
  · simp only [putOut]
    split <;> rfl

theorem updCore_dv (p : NetworkPacket) (rt : List RtRow) :
    ((updCore p rt).2).map dv = rt.map dv := by
  unfold updCore
  cases hto : to_byte_S p with
  | error e => rfl
  | ok str_p =>
    simp only
    split
    · rfl
    · cases hts1 : tempSet? (chunk3 ((List.tail (splitWs (pySub str_p))).dropLast.map PyVal.s)) 1 0 with
      | none => rfl
      | some tl1 =>
        simp only
        cases hts2 : tempSet? tl1 2 0 with
        | none => rfl
        | some tl2 =>
          simp only
          cases hr1 : rtSet? rt 2 (.num 0) with
          | none => rfl
          | some rt1 =>
            simp only
            cases hr2 : rtSet? rt1 1 (.num 0) with
            | none => simpa using rtSetQ_dv rt rt1 2 (.num 0) hr1
            | some rt2 =>
              simp only
              have hdv2 : rt2.map dv = rt.map dv := by
                rw [rtSetQ_dv rt1 rt2 1 (.num 0) hr2, rtSetQ_dv rt rt1 2 (.num 0) hr1]
              have hloop := updLoop_dv (List.range tl2.length) tl2 rt2
              cases hl : updLoop (List.range tl2.length) tl2 rt2 with
              | mk res rest =>
                obtain ⟨tlF, rtF⟩ := rest
                rw [hl] at hloop
                simp only at hloop
                cases res with
                | error e => simpa [hloop] using hdv2
                | ok u =>
                  simp only
                  split <;> simpa [hloop] using hdv2

theorem update_routes_dv (p : NetworkPacket) (i : Nat) (s : Router) :
    ((update_routes p i s).2).rt_tbl_D.map dv = s.rt_tbl_D.map dv := by
  unfold update_routes
  have hc := updCore_dv p s.rt_tbl_D
  cases h : updCore p s.rt_tbl_D with
  | mk r rt2 =>
    rw [h] at hc
    simp only at hc
    cases r with
    | error e => simpa using hc
    | ok u => simpa [send_routes_rt] using hc

theorem initStep_dv (tbl : List RtRow) (e : CostEntry) :
    (initStep tbl e).map dv = tbl.map dv := by
  unfold initStep
  repeat' split
  all_goals simp [rtSet_dv]

theorem foldl_initStep_dv (cD : List CostEntry) :
    ∀ acc : List RtRow, (cD.foldl initStep acc).map dv = acc.map dv := by
  induction cD with
  | nil => intro acc; rfl
  | cons e es ih =>
    intro acc
    rw [List.foldl_cons, ih (initStep acc e), initStep_dv]

/-! ## Claim theorems -/

set_option maxRecDepth 4000

/-- C1 counterexample: for the packet with destination `10` (a non-negative
integer `< 100000`, protocol tag `data`), decoding the encoding does NOT
yield the packet back: the destination comes back as `1`, because
`byte_S[0:5].strip('0')` strips trailing `'0'` characters as well as the
zero-fill padding.  Information is lost, refuting the exact-round-trip
claim. -/
theorem C1_counterexample :
    roundTrip p10 = Except.ok ⟨[ '1' ], sData, []⟩ ∧
    ([ '1' ] : List Char) ≠ ("10").toList := by decide

/-- C1 (amended): the round trip is exact for every packet whose protocol tag
is `data` or `control` and whose destination is a string of decimal digits of
length at most 5 — i.e. a non-negative integer `< 100000` as the code writes
it — that is unchanged by stripping `'0'` from both ends, i.e. neither starts
nor ends with `'0'` (for integers: `1 ≤ d < 100000` and `d` not divisible by
10, plus the empty string that destination `0` decodes to).  Protocol tag and
payload always survive the round trip; only such destinations do. -/
theorem C1_round_trip (p : NetworkPacket) (h5 : p.dst.length ≤ 5)
    (hdig : p.dst.all Char.isDigit = true)
    (hs : pyStrip0 p.dst = p.dst)
    (hp : p.prot_S = sData ∨ p.prot_S = sControl) :
    roundTrip p = Except.ok p := by
  obtain ⟨d, pr, da⟩ := p
  simp only at h5 hdig hs
  have hsign : ∀ c, d.head? = some c → ¬(c = '+' ∨ c = '-') := by
    intro c hc hor
    have hcd : c.isDigit = true := by
      cases d with
      | nil => cases hc
      | cons a t =>
        cases hc
        simp only [List.all_cons, Bool.and_eq_true] at hdig
        exact hdig.1
    rcases hor with rfl | rfl <;> exact absurd hcd (by decide)
  have hpre : (List.replicate (5 - d.length) '0' ++ d).length = 5 := by
    simp only [List.length_append, List.length_replicate]
    omega
  have hstrip : pyStrip0 (List.replicate (5 - d.length) '0' ++ d) = d := by
    rw [pyStrip0_pad, hs]
  rcases hp with hp | hp <;> simp only at hp <;> subst hp
  · show roundTrip ⟨d, sData, da⟩ = Except.ok ⟨d, sData, da⟩
    simp only [roundTrip, to_byte_S, if_pos]
    rw [zfill5_eq d h5 hsign]
    simp only [from_byte_S]
    rw [take_append_len _ _ 5 hpre, drop_append_len _ _ 5 hpre, List.append_cons,
      drop_append_len (List.replicate (5 - d.length) '0' ++ d ++ [ '1' ]) da 6
        (by simp only [List.length_append, hpre]; rfl)]
    simp [hstrip]
  · show roundTrip ⟨d, sControl, da⟩ = Except.ok ⟨d, sControl, da⟩
    have hne : sControl ≠ sData := by decide
    simp only [roundTrip, to_byte_S, if_neg hne, if_pos]
    rw [zfill5_eq d h5 hsign]
    simp only [from_byte_S]
    rw [take_append_len _ _ 5 hpre, drop_append_len _ _ 5 hpre, List.append_cons,
      drop_append_len (List.replicate (5 - d.length) '0' ++ d ++ [ '2' ]) da 6
        (by simp only [List.length_append, hpre]; rfl)]
    simp [hstrip]

/-- C1 witness: the amended round trip at the concrete packet
`(dst 42, data, payload hi)`. -/
theorem C1_round_trip_witness : roundTrip p42 = Except.ok p42 :=
  C1_round_trip p42 (by decide) (by decide) (by decide) (Or.inl rfl)

/-- C2 failing input, evaluated: router `RB` with cost table
`[(H2, interface 0, cost 1)]` receives the control packet `pCtl`.
`update_routes` completes without error, yet the stored cost for destination
`H2` (row 1) goes from `1` to `3` — an increase, produced by the
unconditional `rt_tbl_D[1][2] = 0` zeroing followed by the hard-coded
`(H2, RB) → 3` branch.  This refutes monotonic non-increase. -/
theorem C2_update_raises_stored_cost :
    sC2.rt_tbl_D.map (fun r => r.cost) =
      [PyCost.tilde, PyCost.num 1, PyCost.tilde, PyCost.tilde,
       PyCost.tilde, PyCost.tilde, PyCost.tilde] ∧
    (update_routes pCtl 0 sC2).1 = Except.ok () ∧
    ((update_routes pCtl 0 sC2).2).rt_tbl_D.map (fun r => r.cost) =
      [PyCost.num 2, PyCost.num 3, PyCost.num 1, PyCost.tilde,
       PyCost.tilde, PyCost.tilde, PyCost.tilde] := by decide

/-- C3 failing input, evaluated: the two-interface router `sC3` receives the
control packet `pCtl` on interface 1.  The routing table changes, yet the
router advertises on interface 0 only: interface 1's out queue stays empty
(and interface 0 receives exactly one update).  `update_routes` ends in an
unconditional `send_routes(0)` — never one call per interface, and a send
happens even when nothing changed. -/
theorem C3_no_full_readvertisement :
    (update_routes pCtl 1 sC3).1 = Except.ok () ∧
    ((update_routes pCtl 1 sC3).2).rt_tbl_D ≠ sC3.rt_tbl_D ∧
    ((update_routes pCtl 1 sC3).2).outQ.getD 1 [] = [] ∧
    (((update_routes pCtl 1 sC3).2).outQ.getD 0 []).length = 1 := by decide

/-- C4 failing input, evaluated: two cost tables identical except for the
neighbor's name — `[(H1, 0, 5)]` versus `[(XX, 0, 5)]`.  `initTable` copies
cost 5 into the table for the hard-coded name `H1` but drops it entirely for
`XX`: behaviour depends on the specific node name, not only on the
`(id, cost)` pairs. -/
theorem C4_neighbor_name_special_cased :
    (initTable (("RA").toList) [⟨sH1, 0, 5⟩]).map (fun r => r.cost) =
      [PyCost.num 5, PyCost.tilde, PyCost.tilde, PyCost.tilde,
       PyCost.tilde, PyCost.tilde, PyCost.tilde] ∧
    (initTable (("RA").toList) [⟨("XX").toList, 0, 5⟩]).map (fun r => r.cost) =
      List.replicate 7 PyCost.tilde := by decide

/-- C7 failing input, evaluated: a packet whose protocol digit is `'X'` sits
on interface 0 of `sC7`, a valid data packet on interface 1.  The decode
failure is NOT isolated to that packet: `process_queues` returns the error
(interface 1 is never polled — its packet is still queued), and the `run`
loop terminates with that error rather than with a stop request. -/
theorem C7_decode_error_ends_loop :
    (process_queues sC7).1 = Except.error (Err.unknownProtF [ 'X' ]) ∧
    ((process_queues sC7).2).inQ.getD 1 [] = [("000011ok").toList] ∧
    runSteps 3 sC7 = Except.error (Err.unknownProtF [ 'X' ]) := by decide

/-- C8 failing input, evaluated: a control packet whose payload `'x'` does
not parse as an advertised table.  `update_routes` leaves the routing table
unchanged but fails with an uncaught `IndexError` (from `temp_l[1][2] = 0`),
not a handled `MalformedControlPayloadError`; the error propagates through
`process_queues` and terminates the node's run loop — a crash. -/
theorem C8_malformed_control_crashes :
    update_routes ⟨[], sControl, [ 'x' ]⟩ 0 (mkRouter (("RC").toList) [⟨sH1, 0, 1⟩]) =
      (Except.error Err.indexError, mkRouter (("RC").toList) [⟨sH1, 0, 1⟩]) ∧
    runSteps 2 sC8 = Except.error Err.indexError := by decide

/-- C9 counterexample: the 5-character input `12345` is shorter than 6
characters, yet `from_byte_S` fails through its only error path — the
unknown-protocol raise (with the empty protocol slice) — not with a distinct
`MalformedPacketError`, which the code never raises. -/
theorem C9_counterexample :
    from_byte_S (("12345").toList) = Except.error (Err.unknownProtF []) ∧
    Err.unknownProtF [] ≠ Err.malformedPacket := by decide

/-- C9 (amended): every input whose protocol slice `byte_S[5:6]` is neither
`'1'` nor `'2'` — which includes every input shorter than 6 characters,
whose slice is empty — fails with the unknown-protocol error carrying that
slice.  There is no separate malformed-packet check for short inputs. -/
theorem C9_unknown_protocol (bs : List Char)
    (h1 : (bs.drop 5).take 1 ≠ [ '1' ]) (h2 : (bs.drop 5).take 1 ≠ [ '2' ]) :
    from_byte_S bs = Except.error (Err.unknownProtF ((bs.drop 5).take 1)) := by
  simp only [from_byte_S, if_neg h1, if_neg h2]

/-- C9 witness: the amended statement at the concrete input `abcdeZrest`
(length ≥ 6, protocol digit `'Z'`). -/
theorem C9_unknown_protocol_witness :
    from_byte_S (("abcdeZrest").toList) = Except.error (Err.unknownProtF [ 'Z' ]) :=
  C9_unknown_protocol (("abcdeZrest").toList) (by decide) (by decide)

/-- C10: for every cost table, construction yields exactly the 7 rows with
destinations `H1 H2 RA RB RC RD H3` in that order; and for every state and
packet, `update_routes` (succeeding or failing anywhere) never adds, removes
or reorders rows — the destination and next-hop cells of every row are
untouched, only cost cells are rewritten. -/
theorem C10_table_shape :
    (∀ (name : List Char) (cD : List CostEntry),
        (initTable name cD).map (fun r => r.dst) =
          [sH1, sH2, sRA, sRB, sRC, sRD, sH3] ∧
        (initTable name cD).length = 7) ∧
    (∀ (p : NetworkPacket) (i : Nat) (s : Router),
        ((update_routes p i s).2).rt_tbl_D.map dv = s.rt_tbl_D.map dv) := by
  constructor
  · intro name cD
    have h := foldl_initStep_dv cD (baseTable name)
    have hdst : (initTable name cD).map dv = (baseTable name).map dv := h
    constructor
    · have := congrArg (List.map Prod.fst) hdst
      simpa [List.map_map, dv, baseTable, Function.comp] using this
    · have := congrArg List.length hdst
      simpa [baseTable] using this
  · exact update_routes_dv

/-- C5: if the packet's destination equals the id of a neighbor in the cost
table (the first such entry being `e`, reachable through a valid interface
index), `forward_packet` succeeds and appends the encoded packet to that
neighbor's out queue — the link costs of the entries play no role in this
branch. -/
theorem C5_forward_to_neighbor (s : Router) (p : NetworkPacket) (i : Nat)
    (l₁ l₂ : List CostEntry) (e : CostEntry) (bs : List Char)
    (hsplit : s.cost_D = l₁ ++ e :: l₂)
    (hfirst : ∀ x ∈ l₁, x.nbr ≠ p.dst)
    (hmatch : e.nbr = p.dst)
    (hintf : e.intf < s.outQ.length)
    (henc : to_byte_S p = Except.ok bs) :
    forward_packet p i s =
      (Except.ok (), { s with outQ := s.outQ.set e.intf (s.outQ.getD e.intf [] ++ [bs]) }) := by
  have hfind : s.cost_D.find? (fun x => x.nbr == p.dst) = some e := by
    rw [hsplit]
    exact find?_append_first _ _ _ _
      (fun x hx => by simp [hfirst x hx]) (by simp [hmatch])
  simp only [forward_packet, hfind, if_pos hintf, henc, putOut, reduceCtorEq]

/-- C5 witness: router `sFwd` (neighbors `A` at interface 0 / cost 3 and `B`
at interface 1 / cost 1) forwards a packet destined for `A` on interface 0,
even though `B` is the cheaper neighbor. -/
theorem C5_forward_to_neighbor_witness :
    forward_packet pToA 0 sFwd =
      (Except.ok (), { sFwd with
        outQ := sFwd.outQ.set 0 (sFwd.outQ.getD 0 [] ++ [("0000A1z").toList]) }) :=
  C5_forward_to_neighbor sFwd pToA 0 [] [⟨("B").toList, 1, 1⟩] ⟨("A").toList, 0, 3⟩
    (("0000A1z").toList) rfl (by simp) rfl (by decide) (by decide)

/-- C6: if the packet's destination matches no neighbor id, `forward_packet`
appends the encoded packet to the out queue of the neighbor with the minimum
cost in the cost table, ties broken by the first minimal entry in configured
order: `z` is an entry of minimal cost and every entry before it has a
strictly greater cost. -/
theorem C6_forward_min_cost (s : Router) (p : NetworkPacket) (i : Nat)
    (l₁ l₂ : List CostEntry) (z : CostEntry) (bs : List Char)
    (hno : ∀ x ∈ s.cost_D, x.nbr ≠ p.dst)
    (hsplit : s.cost_D = l₁ ++ z :: l₂)
    (hearlier : ∀ x ∈ l₁, z.cost < x.cost)
    (hmin : ∀ x ∈ s.cost_D, z.cost ≤ x.cost)
    (hintf : z.intf < s.outQ.length)
    (henc : to_byte_S p = Except.ok bs) :
    forward_packet p i s =
      (Except.ok (), { s with outQ := s.outQ.set z.intf (s.outQ.getD z.intf [] ++ [bs]) }) := by
  have hfind0 : s.cost_D.find? (fun x => x.nbr == p.dst) = none := by
    rw [List.find?_eq_none]
    intro x hx
    simp [hno x hx]
  cases hcost : s.cost_D.map (fun e => e.cost) with
  | nil =>
    exfalso
    rw [List.map_eq_nil_iff, hsplit] at hcost
    simp at hcost
  | cons c cs =>
    have hzmem : z.cost ∈ c :: cs := by
      rw [← hcost]
      exact List.mem_map_of_mem _ (by rw [hsplit]; simp)
    have hminval : cs.foldl min c = z.cost := by
      apply le_antisymm
      · rcases List.mem_cons.mp hzmem with h | h
        · rw [← h]
          exact foldl_min_le_init cs z.cost
        · exact foldl_min_le_mem cs c _ h
      · have hfmem : cs.foldl min c ∈ c :: cs := foldl_min_mem cs c
        rw [← hcost] at hfmem
        obtain ⟨w, hw, hweq⟩ := List.mem_map.mp hfmem
        rw [← hweq]
        exact hmin w hw
    have hfindz : s.cost_D.find? (fun e => e.cost == cs.foldl min c) = some z := by
      rw [hminval, hsplit]
      exact find?_append_first _ _ _ _
        (fun x hx => by simp [Int.ne_of_gt (hearlier x hx)]) (by simp)
    simp only [forward_packet, hfind0, hcost, hfindz, if_pos hintf, henc, putOut]

/-- C6 witness: the spec's example — costs `A:3, B:1`, a packet for the
unknown destination `C` goes out on `B`'s interface (interface 1). -/
theorem C6_forward_min_cost_witness :
    forward_packet pToC 0 sFwd =
      (Except.ok (), { sFwd with
        outQ := sFwd.outQ.set 1 (sFwd.outQ.getD 1 [] ++ [("0000C1z").toList]) }) :=
  C6_forward_min_cost sFwd pToC 0 [⟨("A").toList, 0, 3⟩] [] ⟨("B").toList, 1, 1⟩
    (("0000C1z").toList) (by decide) rfl (by decide) (by decide) (by decide) (by decide)
